import Mathlib

/-!
Shallow embedding of the broadcast synchronization core of the
`rw-ws-score` repository.

Server side (`api/server.config.js`, lines 25-26 and 40-77): two
process-wide JavaScript objects, `wsConnections` (player identifier to
connection handle) and `players` (player identifier to score), mutated by
the `/ws` message handler, which parses each inbound message with
`JSON.parse`, registers the sending connection and the score under the
property key obtained from `player.playerId`, and then broadcasts
`JSON.stringify(players)` to `Object.values(wsConnections)` inside a
single try/catch.

Client side (`web/src/components/WsContext/WsContext.tsx`): a context
holding a `players` cache replaced on every parseable inbound message and
a `setScore` callback that does `ws.current?.send(JSON.stringify({...}))`.

JavaScript semantics modelled explicitly: property keys are the ToString
coercion of the (possibly `undefined`) field value; plain objects
enumerate array-index keys in ascending numeric order before the other
string keys in insertion order; property assignment on an existing key
keeps its position; `JSON.stringify` skips properties whose value is
`undefined`; property access on `null`/`undefined` throws, and a throw
inside `forEach` aborts the iteration and propagates to the enclosing
try/catch.  JSON numbers are modelled as integers and JSON arrays are not
modelled; neither restriction is ever exercised by the source's own
message shapes.
-/

/-- Connection handles are identified by an abstract numeric id. -/
abbrev ConnId : Type := Nat

/-- JavaScript values as far as the relay can observe them: the possible
results of `JSON.parse` (null, booleans, numbers, strings, objects) plus
`undefined`, which arises from accessing a missing property. -/
inductive JSValue where
  | undef : JSValue
  | jsNull : JSValue
  | bool : Bool → JSValue
  | num : Int → JSValue
  | str : String → JSValue
  | obj : List (String × JSValue) → JSValue

/-- Property read `v.k` on a value that is not `null`/`undefined`: own
property of an object, `undefined` when missing or when `v` is a
primitive. -/
def getField : JSValue → String → JSValue
  | JSValue.obj fields, k => ((fields.find? (fun p => p.1 == k)).map Prod.snd).getD JSValue.undef
  | _, _ => JSValue.undef

/-- JavaScript ToString coercion, used when a value becomes a property
key (`wsConnections[player.playerId] = ...`). -/
def toPropertyKey : JSValue → String
  | JSValue.undef => "undefined"
  | JSValue.jsNull => "null"
  | JSValue.bool true => "true"
  | JSValue.bool false => "false"
  | JSValue.num n => toString n
  | JSValue.str s => s
  | JSValue.obj _ => "[object Object]"

/-- Property access on `null` or `undefined` throws a TypeError. -/
def isNullish : JSValue → Bool
  | JSValue.undef => true
  | JSValue.jsNull => true
  | _ => false

/-- Numeric value of a string of decimal digits. -/
def digitsToNat (l : List Char) : Nat :=
  l.foldl (fun acc c => acc * 10 + (c.toNat - 48)) 0

/-- Parse a nonempty all-digit string as a natural number. -/
def keyToNat? (s : String) : Option Nat :=
  if !s.toList.isEmpty && s.toList.all Char.isDigit then some (digitsToNat s.toList)
  else none

/-- Whether a string is a canonical array index (an integer below
2^32 - 1 in canonical decimal form); such keys enumerate first. -/
def isArrayIndex (s : String) : Bool :=
  match keyToNat? s with
  | some n => toString n == s && n < 4294967295
  | none => false

/-- Insertion sort helper for the array-index portion of key order. -/
def insertByNat {α : Type} (f : α → Nat) (a : α) : List α → List α
  | [] => [a]
  | b :: l => if f a ≤ f b then a :: b :: l else b :: insertByNat f a l

/-- Insertion sort by a numeric measure (keys are distinct in use, so
stability is irrelevant). -/
def sortByNat {α : Type} (f : α → Nat) : List α → List α
  | [] => []
  | a :: l => insertByNat f a (sortByNat f l)

/-- Numeric value of an array-index key. -/
def keyNat (s : String) : Nat := (keyToNat? s).getD 0

/-- Property assignment `o[k] = v` on a plain object: overwrite the
existing key in place (keys of a JavaScript object are unique, so at
most one entry can match), append a new key at the end. -/
def objSet {α : Type} (l : List (String × α)) (k : String) (v : α) : List (String × α) :=
  match l with
  | [] => [(k, v)]
  | p :: rest => if p.1 == k then (k, v) :: rest else p :: objSet rest k v

/-- Property read as an option (missing key gives `none`). -/
def objGet {α : Type} (l : List (String × α)) (k : String) : Option α :=
  (l.find? (fun p => p.1 == k)).map Prod.snd

/-- Own-property enumeration order of a plain object: array-index keys
ascending, then the remaining string keys in insertion order. -/
def objEnumOrder {α : Type} (l : List (String × α)) : List (String × α) :=
  sortByNat (fun p => keyNat p.1) (l.filter (fun p => isArrayIndex p.1)) ++
    l.filter (fun p => !isArrayIndex p.1)

/-- Values of `Object.values(o)`, in enumeration order. -/
def objValues {α : Type} (l : List (String × α)) : List α :=
  (objEnumOrder l).map Prod.snd

/-- JSON string escaping for a single character. -/
def jsonEscapeChar (c : Char) : String :=
  if c = '\\' then "\\\\" else if c = '"' then "\\\"" else String.singleton c

/-- JSON quoting of a string. -/
def jsonQuote (s : String) : String :=
  "\"" ++ String.join (s.toList.map jsonEscapeChar) ++ "\""

mutual

/-- Translation of `JSON.stringify` on a single value (nested object
fields serialize in stored order). -/
def stringifyVal : JSValue → String
  | JSValue.undef => "undefined"
  | JSValue.jsNull => "null"
  | JSValue.bool true => "true"
  | JSValue.bool false => "false"
  | JSValue.num n => toString n
  | JSValue.str s => jsonQuote s
  | JSValue.obj fields => "\x7b" ++ stringifyFields fields true ++ "\x7d"

/-- Serialization of an object's fields; properties whose value is
`undefined` are skipped, exactly as `JSON.stringify` does. -/
def stringifyFields : List (String × JSValue) → Bool → String
  | [], _ => ""
  | (k, v) :: rest, first =>
    match v with
    | JSValue.undef => stringifyFields rest first
    | JSValue.jsNull =>
      (if first then "" else ",") ++ jsonQuote k ++ ":" ++ stringifyVal JSValue.jsNull ++
        stringifyFields rest false
    | w =>
      (if first then "" else ",") ++ jsonQuote k ++ ":" ++ stringifyVal w ++
        stringifyFields rest false

end

/-- Translation of `JSON.stringify(players)`: the object's properties in
enumeration order. -/
def stringifyPlayers (ps : List (String × JSValue)) : String :=
  "\x7b" ++ stringifyFields (objEnumOrder ps) true ++ "\x7d"

/-- The two process-wide stores of `api/server.config.js` lines 25-26:
the Connection Registry and the Player State Store. -/
structure ServerState where
  wsConnections : List (String × ConnId)
  players : List (String × JSValue)

/-- Both stores start empty (`const wsConnections = {}`,
`const players = {}`). -/
def initState : ServerState := ⟨[], []⟩

/-- The broadcast loop (lines 56-58):
`Object.values(wsConnections).forEach((c) => c.socket.send(...))`.
`sendOk` tells whether `send` on a given handle succeeds; a failing
`send` throws, which aborts the `forEach` iteration.  Returns the sends
performed and whether an exception propagated out of the loop. -/
def broadcastLoop (conns : List ConnId) (payload : String) (sendOk : ConnId → Bool) :
    List (ConnId × String) × Bool :=
  match conns with
  | [] => ([], false)
  | c :: rest =>
    if sendOk c then
      let r := broadcastLoop rest payload sendOk
      ((c, payload) :: r.1, r.2)
    else ([], true)

/-- Outcome of the `try` block body: normal completion or an exception
carrying the state and sends performed up to the throw point (object
mutations are not rolled back). -/
inductive BodyOutcome where
  | ok : ServerState → List (ConnId × String) → BodyOutcome
  | thrown : ServerState → List (ConnId × String) → BodyOutcome

/-- Lines 52-58 after a successful `JSON.parse`: read
`player.playerId` (throws on `null`), register the connection and store
the score under the coerced key, then broadcast the serialized store. -/
def tryBlock (st : ServerState) (conn : ConnId) (v : JSValue) (sendOk : ConnId → Bool) :
    BodyOutcome :=
  if isNullish v then
    BodyOutcome.thrown st []
  else
    let key := toPropertyKey (getField v "playerId")
    let ws2 := objSet st.wsConnections key conn
    let ps2 := objSet st.players key (getField v "score")
    let r := broadcastLoop (objValues ws2) (stringifyPlayers ps2) sendOk
    if r.2 then BodyOutcome.thrown ⟨ws2, ps2⟩ r.1 else BodyOutcome.ok ⟨ws2, ps2⟩ r.1

/-- Result of one `message` event: the state afterwards, the successful
`socket.send` calls in order, whether the `catch` block logged an error,
and the connections the handler closed (the source never closes any). -/
structure StepResult where
  state : ServerState
  sends : List (ConnId × String)
  loggedError : Bool
  closes : List ConnId

/-- The whole `message` handler (lines 48-63) as the event loop invokes
it: `JSON.parse` inside `try` (a raw message that fails to parse is
`none`), the try block, and the `catch` that logs and swallows any
exception.  `Except.error` would mean an exception escaped the handler. -/
def messageEvent (st : ServerState) (conn : ConnId) (parsed : Option JSValue)
    (sendOk : ConnId → Bool) : Except Unit StepResult :=
  match parsed with
  | none => Except.ok ⟨st, [], true, []⟩
  | some v =>
    match tryBlock st conn v sendOk with
    | BodyOutcome.ok st2 sends => Except.ok ⟨st2, sends, false, []⟩
    | BodyOutcome.thrown st2 sends => Except.ok ⟨st2, sends, true, []⟩

/-- Total view of the `message` handler. -/
def handleMessage (st : ServerState) (conn : ConnId) (parsed : Option JSValue)
    (sendOk : ConnId → Bool) : StepResult :=
  match messageEvent st conn parsed sendOk with
  | Except.ok r => r
  | Except.error _ => ⟨st, [], true, []⟩

/-- Events the server reacts to: an inbound message on a connection
(with the per-handle send behaviour during its broadcast) or a
connection close. -/
inductive SEvent where
  | msg : ConnId → Option JSValue → (ConnId → Bool) → SEvent
  | close : ConnId → SEvent

/-- Whether an event is a close notification. -/
def SEvent.isClose : SEvent → Bool
  | SEvent.close _ => true
  | _ => false

/-- One event step: the message handler, or the close handler
(lines 65-67), which only logs `Client disconnected`. -/
def serverStep (st : ServerState) : SEvent → ServerState × List (ConnId × String)
  | SEvent.msg c p s => ((handleMessage st c p s).state, (handleMessage st c p s).sends)
  | SEvent.close _ => (st, [])

/-- Processing a sequence of events in order (the single-threaded event
loop), returning the final state. -/
def serverRun (st : ServerState) (evs : List SEvent) : ServerState :=
  evs.foldl (fun s e => (serverStep s e).1) st

/-- A well-formed update message `{"playerId": id, "score": score}` as
produced by the client's `setScore`. -/
def updMsg (id : String) (score : JSValue) : Option JSValue :=
  some (JSValue.obj [("playerId", JSValue.str id), ("score", score)])

/-- A valid update as the spec quantifies over them: originating
connection, player identifier, score, and the send behaviour in force
during the resulting broadcast. -/
structure Upd where
  conn : ConnId
  id : String
  score : JSValue
  sendOk : ConnId → Bool

/-- The server event carrying an update. -/
def mkUpdEvent (u : Upd) : SEvent := SEvent.msg u.conn (updMsg u.id u.score) u.sendOk

/-- Score of the last update in the sequence bearing the identifier. -/
def lastScore (us : List Upd) (id : String) : Option JSValue :=
  (us.reverse.find? (fun u => u.id == id)).map Upd.score

/-- Ready state of the browser WebSocket held in `ws.current`. -/
inductive ReadyState where
  | connecting : ReadyState
  | opened : ReadyState
  | closing : ReadyState
  | closed : ReadyState

/-- State of the client sync agent (`WsContextProvider`): the cached
`players` snapshot and the socket stored in `ws.current`, `none` before
the mount effect has run. -/
structure ClientState where
  players : JSValue
  wsCurrent : Option ReadyState

/-- The client's `socket.onmessage` handler (WsContext.tsx lines 31-40):
`JSON.parse(event.data)` (`none` when it throws), on success
`setPlayers(players)` replaces the cache in full, on failure the error
is logged and the cache is untouched.  The Bool records whether the
catch block logged. -/
def clientOnMessage (st : ClientState) (parsed : Option JSValue) : ClientState × Bool :=
  match parsed with
  | some v => ({ st with players := v }, false)
  | none => (st, true)

/-- Observable effect of one `setScore` call. -/
inductive SendEffect where
  | sent : String → SendEffect
  | nothingSent : SendEffect
  | raised : SendEffect

/-- Whether the effect actually transmitted a payload. -/
def effSent : SendEffect → Bool
  | SendEffect.sent _ => true
  | _ => false

/-- The client's `setScore` callback (WsContext.tsx lines 49-51):
`ws.current?.send(JSON.stringify({ playerId, score }))`.  The optional
chaining makes the call a no-op when no socket was ever stored; when a
socket exists, `send` follows the WHATWG WebSocket standard: it throws
InvalidStateError while CONNECTING, transmits while OPEN, and silently
discards the data while CLOSING or CLOSED.  The function never touches
the `players` cache, which the returned state makes explicit. -/
def setScore (st : ClientState) (playerId : String) (score : Int) : ClientState × SendEffect :=
  match st.wsCurrent with
  | none => (st, SendEffect.nothingSent)
  | some ReadyState.connecting => (st, SendEffect.raised)
  | some ReadyState.opened =>
    (st, SendEffect.sent (stringifyVal (JSValue.obj
      [("playerId", JSValue.str playerId), ("score", JSValue.num score)])))
  | some ReadyState.closing => (st, SendEffect.nothingSent)
  | some ReadyState.closed => (st, SendEffect.nothingSent)

/-! ### Lemmas about the JavaScript object model -/

theorem objGet_objSet {α : Type} (l : List (String × α)) (k : String) (v : α) (q : String) :
    objGet (objSet l k v) q = if q = k then some v else objGet l q := by
  induction l with
  | nil =>
    by_cases h : q = k
    · subst h
      simp [objSet, objGet, List.find?]
    · have hkq : (k == q) = false := beq_eq_false_iff_ne.mpr (fun h2 => h h2.symm)
      simp [objSet, objGet, List.find?, hkq, h]
  | cons p rest ih =>
    by_cases hp : p.1 = k
    · have hpk : (p.1 == k) = true := beq_iff_eq.mpr hp
      by_cases h : q = k
      · subst h
        simp [objSet, objGet, List.find?, hpk]
      · have hkq : (k == q) = false := beq_eq_false_iff_ne.mpr (fun h2 => h h2.symm)
        have hpq : (p.1 == q) = false := by rw [hp]; exact hkq
        simp [objSet, objGet, List.find?, hpk, hkq, hpq, h]
    · have hpk : (p.1 == k) = false := beq_eq_false_iff_ne.mpr hp
      by_cases hq : p.1 = q
      · have hpq : (p.1 == q) = true := beq_iff_eq.mpr hq
        have hqk : ¬ q = k := fun h2 => hp (hq.trans h2)
        simp [objSet, objGet, List.find?, hpk, hpq, hqk]
      · have hpq : (p.1 == q) = false := beq_eq_false_iff_ne.mpr hq
        simp only [objSet, hpk, Bool.false_eq_true, if_false]
        simp only [objGet, List.find?, hpq] at ih ⊢
        exact ih

theorem mem_map_fst_objSet {α : Type} (l : List (String × α)) (k : String) (v : α) (a : String) :
    a ∈ (objSet l k v).map Prod.fst ↔ a ∈ l.map Prod.fst ∨ a = k := by
  induction l with
  | nil => simp [objSet]
  | cons p rest ih =>
    by_cases hp : p.1 = k
    · subst hp
      simp [objSet]
      tauto
    · simp [objSet, beq_iff_eq, hp, ih]
      tauto

theorem nodup_map_fst_objSet {α : Type} (l : List (String × α)) (k : String) (v : α)
    (h : (l.map Prod.fst).Nodup) : ((objSet l k v).map Prod.fst).Nodup := by
  induction l with
  | nil => simp [objSet]
  | cons p rest ih =>
    simp only [List.map_cons, List.nodup_cons] at h
    by_cases hp : p.1 = k
    · subst hp
      simpa [objSet, List.nodup_cons] using h
    · simp only [objSet, beq_iff_eq, hp, if_false, List.map_cons, List.nodup_cons]
      refine ⟨?_, ih h.2⟩
      rw [mem_map_fst_objSet]
      rintro (hm | hm)
      · exact h.1 hm
      · exact hp hm

theorem broadcastLoop_fst (conns : List ConnId) (payload : String) (sendOk : ConnId → Bool) :
    (broadcastLoop conns payload sendOk).1 =
      (conns.takeWhile sendOk).map (fun c => (c, payload)) := by
  induction conns with
  | nil => rfl
  | cons c rest ih =>
    by_cases h : sendOk c = true <;> simp [broadcastLoop, List.takeWhile_cons, h, ih]

theorem broadcastLoop_allOk (conns : List ConnId) (payload : String) :
    broadcastLoop conns payload (fun _ => true) = (conns.map (fun c => (c, payload)), false) := by
  induction conns with
  | nil => rfl
  | cons c rest ih => simp [broadcastLoop, ih]

/-! ### Shape lemmas about the message handler -/

theorem getField_updMsg_playerId (id : String) (score : JSValue) :
    getField (JSValue.obj [("playerId", JSValue.str id), ("score", score)]) "playerId" =
      JSValue.str id := by
  simp [getField, List.find?]

theorem getField_updMsg_score (id : String) (score : JSValue) :
    getField (JSValue.obj [("playerId", JSValue.str id), ("score", score)]) "score" =
      score := by
  simp [getField, List.find?]

theorem broadcastLoop_snd (conns : List ConnId) (payload : String) (sendOk : ConnId → Bool) :
    (broadcastLoop conns payload sendOk).2 = !(conns.all sendOk) := by
  induction conns with
  | nil => rfl
  | cons c rest ih => by_cases h : sendOk c = true <;> simp [broadcastLoop, h, ih]

theorem handleMessage_updMsg (st : ServerState) (conn : ConnId) (id : String)
    (score : JSValue) (sendOk : ConnId → Bool) :
    handleMessage st conn (updMsg id score) sendOk =
      ⟨⟨objSet st.wsConnections id conn, objSet st.players id score⟩,
       ((objValues (objSet st.wsConnections id conn)).takeWhile sendOk).map
         (fun c => (c, stringifyPlayers (objSet st.players id score))),
       !((objValues (objSet st.wsConnections id conn)).all sendOk),
       []⟩ := by
  have h1 := getField_updMsg_playerId id score
  have h2 := getField_updMsg_score id score
  have hfst := broadcastLoop_fst (objValues (objSet st.wsConnections id conn))
    (stringifyPlayers (objSet st.players id score)) sendOk
  have hsnd := broadcastLoop_snd (objValues (objSet st.wsConnections id conn))
    (stringifyPlayers (objSet st.players id score)) sendOk
  simp only [handleMessage, messageEvent, updMsg, tryBlock, h1, h2, isNullish, toPropertyKey]
  rcases hb : broadcastLoop (objValues (objSet st.wsConnections id conn))
      (stringifyPlayers (objSet st.players id score)) sendOk with ⟨sl, fl⟩
  rw [hb] at hfst hsnd
  cases fl
  · simp only [Bool.false_eq_true, if_false]
    rw [← hsnd]
    exact congrArg (fun s => StepResult.mk _ s _ _) hfst
  · simp only [if_true]
    rw [← hsnd]
    exact congrArg (fun s => StepResult.mk _ s _ _) hfst

theorem isNullish_false_of_not {v : JSValue} (h : ¬ isNullish v = true) :
    isNullish v = false := by
  revert h
  cases hv : isNullish v <;> simp

theorem handleMessage_state_eq (st : ServerState) (conn : ConnId) (parsed : Option JSValue)
    (sendOk : ConnId → Bool) :
    (handleMessage st conn parsed sendOk).state = st ∨
    ∃ k sc, (handleMessage st conn parsed sendOk).state =
      ⟨objSet st.wsConnections k conn, objSet st.players k sc⟩ := by
  cases parsed with
  | none => exact Or.inl rfl
  | some v =>
    by_cases hv : isNullish v = true
    · left
      simp [handleMessage, messageEvent, tryBlock, hv]
    · right
      refine ⟨toPropertyKey (getField v "playerId"), getField v "score", ?_⟩
      simp only [handleMessage, messageEvent, tryBlock, isNullish_false_of_not hv,
        Bool.false_eq_true, if_false]
      cases hb : (broadcastLoop (objValues (objSet st.wsConnections
          (toPropertyKey (getField v "playerId")) conn))
          (stringifyPlayers (objSet st.players (toPropertyKey (getField v "playerId"))
            (getField v "score"))) sendOk).2 <;>
        simp [hb]

theorem handleMessage_sends_shape (st : ServerState) (conn : ConnId) (v : JSValue)
    (sendOk : ConnId → Bool) (hv : isNullish v = false) :
    (handleMessage st conn (some v) sendOk).sends =
      ((objValues (handleMessage st conn (some v) sendOk).state.wsConnections).takeWhile
        sendOk).map
        (fun c => (c, stringifyPlayers (handleMessage st conn (some v) sendOk).state.players)) := by
  simp only [handleMessage, messageEvent, tryBlock, hv, Bool.false_eq_true, if_false]
  cases hb : (broadcastLoop (objValues (objSet st.wsConnections
      (toPropertyKey (getField v "playerId")) conn))
      (stringifyPlayers (objSet st.players (toPropertyKey (getField v "playerId"))
        (getField v "score"))) sendOk).2 <;>
    simp [hb, broadcastLoop_fst]

theorem serverRun_cons (st : ServerState) (e : SEvent) (evs : List SEvent) :
    serverRun st (e :: evs) = serverRun (serverStep st e).1 evs := rfl

theorem serverStep_upd (st : ServerState) (u : Upd) :
    (serverStep st (mkUpdEvent u)).1 =
      ⟨objSet st.wsConnections u.id u.conn, objSet st.players u.id u.score⟩ := by
  simp [serverStep, mkUpdEvent, handleMessage_updMsg]

theorem lastScore_cons (u : Upd) (rest : List Upd) (id : String) :
    lastScore (u :: rest) id =
      (lastScore rest id).or (if u.id == id then some u.score else none) := by
  cases hui : (u.id == id) with
  | false =>
    simp [lastScore, List.reverse_cons, List.find?_append, List.find?, hui,
      Option.map_or', Option.or_none]
  | true =>
    simp [lastScore, List.reverse_cons, List.find?_append, List.find?, hui, Option.map_or']

theorem c1_aux (us : List Upd) : ∀ (st : ServerState) (id : String),
    objGet (serverRun st (us.map mkUpdEvent)).players id =
      (lastScore us id).or (objGet st.players id) := by
  induction us with
  | nil =>
    intro st id
    simp [serverRun, lastScore]
  | cons u rest ih =>
    intro st id
    rw [List.map_cons, serverRun_cons, ih, serverStep_upd, lastScore_cons, Option.or_assoc]
    congr 1
    rw [objGet_objSet]
    by_cases hid : id = u.id
    · subst hid
      simp
    · have hne : (u.id == id) = false := beq_eq_false_iff_ne.mpr (fun h => hid h.symm)
      simp [hid, hne]

theorem takeWhile_all_true {α : Type} (l : List α) : l.takeWhile (fun _ => true) = l := by
  induction l with
  | nil => rfl
  | cons a rest ih => simp [List.takeWhile_cons, ih]

/-! ### Claims -/

/-- Claim C1: for every finite sequence of valid update messages
`(playerId, score)`, sent over any number of connections and processed in
order, the Player State Store equals the mapping in which each
identifier maps to the score of the last message bearing that
identifier, independently of the originating connections (which the
right-hand side does not mention) and of any send failures during the
broadcasts. -/
theorem store_is_last_writer_wins (us : List Upd) (id : String) :
    objGet (serverRun initState (us.map mkUpdEvent)).players id = lastScore us id := by
  have h := c1_aux us initState id
  simpa [initState, objGet, List.find?, Option.or_none] using h

/-- Claim C2 (counterexample): connection 1 first sends
`{"playerId":"x","score":1}` and then `{"playerId":"y","score":2}`.
While the second message is processed, the handle of connection 1 is
stored in the Connection Registry (under both identifiers) but is sent
two copies of the snapshot, not exactly one, because the broadcast loop
sends once per registry entry. -/
theorem broadcast_duplicate_handle_two_sends :
    ((handleMessage
        (serverRun initState [mkUpdEvent ⟨1, "x", JSValue.num 1, fun _ => true⟩])
        1 (updMsg "y" (JSValue.num 2)) (fun _ => true)).sends.countP
      (fun s => s.1 == 1)) = 2 ∧
    (objValues (handleMessage
        (serverRun initState [mkUpdEvent ⟨1, "x", JSValue.num 1, fun _ => true⟩])
        1 (updMsg "y" (JSValue.num 2)) (fun _ => true)).state.wsConnections).contains 1
      = true := by
  decide

/-- Claim C2 (amended): after a valid update is processed with every
send succeeding, the emitted sends are exactly one message per entry of
the post-mutation Connection Registry, in enumeration order, each
carrying the serialization of the Player State Store as it stands
immediately after the mutation; a handle registered under several
identifiers therefore receives one copy per identifier. -/
theorem broadcast_fanout_per_entry (st : ServerState) (conn : ConnId) (id : String)
    (score : JSValue) :
    handleMessage st conn (updMsg id score) (fun _ => true) =
      ⟨⟨objSet st.wsConnections id conn, objSet st.players id score⟩,
       (objValues (objSet st.wsConnections id conn)).map
         (fun c => (c, stringifyPlayers (objSet st.players id score))),
       false, []⟩ := by
  rw [handleMessage_updMsg, takeWhile_all_true]
  simp

/-- Claim C3 (counterexample): the message `{}` is valid JSON but lacks
both required fields.  The handler does not drop it: it registers the
sending connection and stores `undefined` under the key `"undefined"`,
and it broadcasts to the (just-registered) sender, so the stores change
and a send occurs. -/
theorem missing_fields_message_not_dropped :
    (handleMessage initState 1 (some (JSValue.obj [])) (fun _ => true)).sends.length = 1 ∧
    (handleMessage initState 1 (some (JSValue.obj [])) (fun _ => true)).state.wsConnections
      = [("undefined", 1)] ∧
    (handleMessage initState 1 (some (JSValue.obj [])) (fun _ => true)).state.players.length
      = 1 := by
  decide

/-- Claim C3 (amended): a raw message that fails `JSON.parse`, or parses
to `null` (so that reading `player.playerId` throws), is logged and
dropped: the stores are unchanged, nothing is sent, and no connection is
closed.  A message that parses to a JSON value merely missing the
`playerId`/`score` fields is, however, processed: the score field (or
`undefined`) is stored under the key `"undefined"`, the string coercion
of the missing identifier. -/
theorem unparseable_message_dropped :
    (∀ st conn sendOk, handleMessage st conn none sendOk = ⟨st, [], true, []⟩) ∧
    (∀ st conn sendOk, handleMessage st conn (some JSValue.jsNull) sendOk = ⟨st, [], true, []⟩) ∧
    (∀ st conn sendOk,
      (handleMessage st conn (some (JSValue.obj [])) sendOk).state.players =
        objSet st.players "undefined" JSValue.undef) := by
  refine ⟨fun st conn sendOk => rfl, fun st conn sendOk => rfl, fun st conn sendOk => ?_⟩
  have h := handleMessage_state_eq st conn (some (JSValue.obj [])) sendOk
  simp only [handleMessage, messageEvent, tryBlock, isNullish, Bool.false_eq_true, if_false,
    getField, List.find?, toPropertyKey]
  cases hb : (broadcastLoop (objValues (objSet st.wsConnections "undefined" conn))
      (stringifyPlayers (objSet st.players "undefined" JSValue.undef)) sendOk).2 <;>
    simp [hb]

/-- Claim C4: the message handler never lets a fault escape: for every
state, connection, parse outcome and send behaviour, the event-level
handler returns normally (`Except.ok`) — parse failures, `TypeError` on
a `null` payload and send failures during the broadcast are all caught
by the handler's try/catch. -/
theorem message_handler_never_faults (st : ServerState) (conn : ConnId)
    (parsed : Option JSValue) (sendOk : ConnId → Bool) :
    ∃ r, messageEvent st conn parsed sendOk = Except.ok r := by
  cases parsed with
  | none => exact ⟨_, rfl⟩
  | some v =>
    cases htb : tryBlock st conn v sendOk with
    | ok s l => exact ⟨⟨s, l, false, []⟩, by simp [messageEvent, htb]⟩
    | thrown s l => exact ⟨⟨s, l, true, []⟩, by simp [messageEvent, htb]⟩

/-- Claim C5 (counterexample): with connections 1 (identifier "a") and 2
(identifier "b") registered, connection 2 sends a valid update while
`send` on handle 1 fails.  Handle 2 is registered and its `send` works
(`2 ≠ 1`), yet no snapshot at all is sent — the failure on handle 1
aborts the whole fan-out. -/
theorem send_failure_aborts_fanout :
    (handleMessage
        (serverRun initState [mkUpdEvent ⟨1, "a", JSValue.num 1, fun _ => true⟩,
          mkUpdEvent ⟨2, "b", JSValue.num 2, fun _ => true⟩])
        2 (updMsg "b" (JSValue.num 3)) (fun c => !(c == 1))).sends = [] ∧
    (objValues (handleMessage
        (serverRun initState [mkUpdEvent ⟨1, "a", JSValue.num 1, fun _ => true⟩,
          mkUpdEvent ⟨2, "b", JSValue.num 2, fun _ => true⟩])
        2 (updMsg "b" (JSValue.num 3)) (fun c => !(c == 1))).state.wsConnections).contains 2
      = true ∧
    (!((2 : ConnId) == 1)) = true := by
  decide

/-- Claim C5 (amended): during the fan-out after a valid update, the
registered handles are attempted in enumeration order and a send failure
aborts the rest of the loop: exactly the handles in the longest
all-succeeding prefix receive the snapshot, the failing handle and every
later one receive nothing.  The store mutation persists, and the thrown
send error is caught and logged rather than propagated. -/
theorem send_failure_aborts_rest_of_fanout (st : ServerState) (conn : ConnId) (id : String)
    (score : JSValue) (sendOk : ConnId → Bool) :
    (handleMessage st conn (updMsg id score) sendOk).sends =
      ((objValues (objSet st.wsConnections id conn)).takeWhile sendOk).map
        (fun c => (c, stringifyPlayers (objSet st.players id score))) ∧
    (handleMessage st conn (updMsg id score) sendOk).state =
      ⟨objSet st.wsConnections id conn, objSet st.players id score⟩ ∧
    (handleMessage st conn (updMsg id score) sendOk).loggedError =
      !((objValues (objSet st.wsConnections id conn)).all sendOk) := by
  rw [handleMessage_updMsg]
  exact ⟨rfl, rfl, rfl⟩

/-- Claim C6: on every state reachable from the initial (empty) state by
any sequence of events, each identifier keys at most one entry of the
Connection Registry and at most one entry of the Player State Store (the
key lists are duplicate-free); and a valid update for identifier `id`
replaces both associations: afterwards `id` maps to exactly the new
connection and the new score, while every other identifier's
associations are untouched. -/
theorem identifier_maps_to_at_most_one :
    (∀ evs : List SEvent,
      ((serverRun initState evs).wsConnections.map Prod.fst).Nodup ∧
      ((serverRun initState evs).players.map Prod.fst).Nodup) ∧
    (∀ (st : ServerState) (conn : ConnId) (id : String) (score : JSValue)
        (sendOk : ConnId → Bool) (k : String),
      objGet (handleMessage st conn (updMsg id score) sendOk).state.wsConnections k =
        (if k = id then some conn else objGet st.wsConnections k) ∧
      objGet (handleMessage st conn (updMsg id score) sendOk).state.players k =
        (if k = id then some score else objGet st.players k)) := by
  constructor
  · have aux : ∀ (evs : List SEvent) (st : ServerState),
        (st.wsConnections.map Prod.fst).Nodup → (st.players.map Prod.fst).Nodup →
        ((serverRun st evs).wsConnections.map Prod.fst).Nodup ∧
        ((serverRun st evs).players.map Prod.fst).Nodup := by
      intro evs
      induction evs with
      | nil => exact fun st h1 h2 => ⟨h1, h2⟩
      | cons e rest ih =>
        intro st h1 h2
        rw [serverRun_cons]
        cases e with
        | close c => exact ih st h1 h2
        | msg c p s =>
          rcases handleMessage_state_eq st c p s with h | ⟨k, sc, h⟩
          · rw [show (serverStep st (SEvent.msg c p s)).1 = (handleMessage st c p s).state
              from rfl, h]
            exact ih st h1 h2
          · rw [show (serverStep st (SEvent.msg c p s)).1 = (handleMessage st c p s).state
              from rfl, h]
            exact ih _ (nodup_map_fst_objSet _ _ _ h1) (nodup_map_fst_objSet _ _ _ h2)
    exact fun evs => aux evs initState (by simp [initState]) (by simp [initState])
  · intro st conn id score sendOk k
    rw [handleMessage_updMsg]
    exact ⟨objGet_objSet st.wsConnections id conn k, objGet_objSet st.players id score k⟩

/-- Claim C7: for every message received by the client sync agent, when
`JSON.parse(event.data)` succeeds the cached `players` state is replaced
in full by the parsed snapshot (independently of the previous cache);
when it fails, the handler logs the error and the previous cache is
retained unchanged. -/
theorem client_replaces_snapshot_in_full :
    (∀ (st : ClientState) (v : JSValue),
      (clientOnMessage st (some v)).1.players = v ∧ (clientOnMessage st (some v)).2 = false) ∧
    (∀ st : ClientState,
      (clientOnMessage st none).1.players = st.players ∧ (clientOnMessage st none).2 = true) :=
  ⟨fun _ _ => ⟨rfl, rfl⟩, fun _ => ⟨rfl, rfl⟩⟩

/-- Claim C8 (counterexample): calling `setScore` while the socket
exists but is still CONNECTING (the state right after the mount effect
runs, before `onopen`) raises an error — `WebSocket.send` throws
InvalidStateError in that state and `setScore` does not guard against
it, so the call is not a silent no-op. -/
theorem setScore_connecting_raises :
    (setScore ⟨JSValue.obj [], some ReadyState.connecting⟩ "p" 1).2 = SendEffect.raised :=
  rfl

/-- Claim C8 (amended): while the connection is not Open, `setScore`
never transmits anything and never changes the cached `players` state;
it is a silent no-op when the socket was never established or is
Closing/Closed, but when the socket is still Connecting the underlying
`send` raises an error that `setScore` does not catch. -/
theorem setScore_not_open_never_sends (st : ClientState) (pid : String) (sc : Int)
    (h : st.wsCurrent ≠ some ReadyState.opened) :
    (setScore st pid sc).1 = st ∧
    effSent (setScore st pid sc).2 = false ∧
    ((setScore st pid sc).2 = SendEffect.raised ↔
      st.wsCurrent = some ReadyState.connecting) := by
  match hW : st.wsCurrent with
  | none => simp [setScore, hW, effSent]
  | some ReadyState.connecting => simp [setScore, hW, effSent]
  | some ReadyState.opened => exact absurd hW h
  | some ReadyState.closing => simp [setScore, hW, effSent]
  | some ReadyState.closed => simp [setScore, hW, effSent]

/-- Claim C8 (witness): the amended theorem applied to the concrete
never-established client state. -/
theorem setScore_not_open_never_sends_witness :
    (setScore ⟨JSValue.obj [], none⟩ "p" 0).1 = ⟨JSValue.obj [], none⟩ ∧
    effSent (setScore ⟨JSValue.obj [], none⟩ "p" 0).2 = false ∧
    ((setScore ⟨JSValue.obj [], none⟩ "p" 0).2 = SendEffect.raised ↔
      (⟨JSValue.obj [], none⟩ : ClientState).wsCurrent = some ReadyState.connecting) :=
  setScore_not_open_never_sends ⟨JSValue.obj [], none⟩ "p" 0 (fun h => Option.noConfusion h)

/-- Claim C9: the close handler only logs: a close event leaves the
whole server state unchanged and sends nothing, and consequently
deleting all close events from any event sequence does not change the
final state of the Connection Registry or the Player State Store. -/
theorem close_handler_is_frame :
    (∀ (st : ServerState) (conn : ConnId), serverStep st (SEvent.close conn) = (st, [])) ∧
    (∀ (st : ServerState) (evs : List SEvent),
      serverRun st (evs.filter (fun e => ! e.isClose)) = serverRun st evs) := by
  refine ⟨fun st conn => rfl, ?_⟩
  intro st evs
  induction evs generalizing st with
  | nil => rfl
  | cons e rest ih =>
    cases e with
    | msg c p s =>
      rw [List.filter_cons_of_pos (by rfl), serverRun_cons, serverRun_cons]
      exact ih _
    | close c =>
      rw [List.filter_cons_of_neg (by simp [SEvent.isClose])]
      exact ih st

/-- Claim C10 (counterexample): connection 1 sends only `{}` — valid
JSON but never a valid update message (it has neither `playerId` nor
`score`).  When connection 2 later sends a valid update, connection 1 is
among the broadcast recipients: being registered (under the key
`"undefined"`) only requires a successfully parsed message, not a valid
update. -/
theorem registered_without_valid_update_receives_broadcast :
    ((handleMessage
        (serverRun initState [SEvent.msg 1 (some (JSValue.obj [])) (fun _ => true)])
        2 (updMsg "x" (JSValue.num 1)) (fun _ => true)).sends.map Prod.fst).contains 1
      = true := by
  decide

theorem map_fst_map_pair {α β : Type} (l : List α) (s : β) :
    ((l.map (fun c => (c, s))).map Prod.fst) = l := by
  induction l with
  | nil => rfl
  | cons a rest ih => simp [ih]

/-- Claim C10 (amended): broadcast recipients are always among the
handles stored in the post-mutation Connection Registry; they are
exactly the registered handles (in enumeration order) whenever the
message parses to an object and every send succeeds; and the registry
gains a handle only from the sender of the message being processed —
any message whose parse succeeds with a non-null value registers its
sender, whether or not the update is valid. -/
theorem recipients_are_registry_handles :
    (∀ (st : ServerState) (conn : ConnId) (parsed : Option JSValue) (sendOk : ConnId → Bool),
      ((handleMessage st conn parsed sendOk).sends.all
        (fun x =>
          (objValues (handleMessage st conn parsed sendOk).state.wsConnections).contains x.1))
        = true) ∧
    (∀ (st : ServerState) (conn : ConnId) (fields : List (String × JSValue)),
      ((handleMessage st conn (some (JSValue.obj fields)) (fun _ => true)).sends.map Prod.fst)
        = objValues
            (handleMessage st conn (some (JSValue.obj fields)) (fun _ => true)).state.wsConnections) ∧
    (∀ (st : ServerState) (conn : ConnId) (parsed : Option JSValue) (sendOk : ConnId → Bool),
      (handleMessage st conn parsed sendOk).state.wsConnections = st.wsConnections ∨
      ∃ k, (handleMessage st conn parsed sendOk).state.wsConnections =
        objSet st.wsConnections k conn) := by
  refine ⟨?_, ?_, ?_⟩
  · intro st conn parsed sendOk
    cases parsed with
    | none => rfl
    | some v =>
      by_cases hv : isNullish v = true
      · simp [handleMessage, messageEvent, tryBlock, hv]
      · rw [handleMessage_sends_shape st conn v sendOk (isNullish_false_of_not hv),
          List.all_eq_true]
        intro x hx
        simp only [List.mem_map] at hx
        rcases hx with ⟨c, hc, heq⟩
        subst heq
        exact List.elem_iff.mpr (List.takeWhile_subset sendOk hc)
  · intro st conn fields
    rw [handleMessage_sends_shape st conn (JSValue.obj fields) (fun _ => true) rfl,
      takeWhile_all_true, map_fst_map_pair]
  · intro st conn parsed sendOk
    rcases handleMessage_state_eq st conn parsed sendOk with h | ⟨k, sc, h⟩
    · exact Or.inl (congrArg ServerState.wsConnections h)
    · exact Or.inr ⟨k, congrArg ServerState.wsConnections h⟩
